import Mathlib

/-!
Verification of the lesson-generation core of the repository.

Shallow embedding of:
* `core/services/ai.py` — `extract_json`, `generate_text`, the `AI_MODELS`
  catalog (Dispatcher);
* `core/tasks.py` — `generate_lesson_task`, `improve_block_task`
  (orchestrators);
* `core/models.py` — `GenerationStatus.progress_percent` and the status
  enumerations.

Python JSON values are embedded as the inductive type `Json`; `json.loads`
is modelled by `json_loads`, a fuel-based recursive-descent parser over the
JSON grammar (numbers restricted to integers, no \u escapes — none of the
inputs relevant to the claims use either).  Exceptions are modelled by
`Option`/explicit failure constructors; Django model saves are modelled as
explicit snapshots of the persisted row.
-/

/-- A Python JSON value (the possible results of `json.loads`).
Numbers are modelled as integers; an object is its field list in textual
order (`jget` below reproduces dict semantics: a duplicated key keeps the
last occurrence). -/
inductive Json where
  | null
  | bool (b : Bool)
  | num (n : Int)
  | str (s : String)
  | arr (elems : List Json)
  | obj (fields : List (String × Json))

/-- Python dict lookup on the parsed field list: the last occurrence of a
duplicated key wins, as in `json.loads`. -/
def jget : List (String × Json) → String → Option Json
  | [], _ => none
  | (k, v) :: rest, key =>
    match jget rest key with
    | some w => some w
    | none => if k = key then some v else none

/-- Python truthiness (`bool(x)`) of a JSON value. -/
def truthy : Json → Bool
  | .null => false
  | .bool b => b
  | .num n => n != 0
  | .str s => !(s.isEmpty)
  | .arr l => !(l.isEmpty)
  | .obj l => !(l.isEmpty)

/-- JSON whitespace skipping. -/
def skipWs : List Char → List Char
  | [] => []
  | c :: cs => if c = ' ' ∨ c = '\t' ∨ c = '\n' ∨ c = '\r' then skipWs cs else c :: cs

/-- JSON string escape table (the \u escape is not modelled; strings in the
claims do not use it). -/
def escMap : Char → Option Char
  | '"' => some '"'
  | '\\' => some '\\'
  | '/' => some '/'
  | 'b' => some (Char.ofNat 8)
  | 'f' => some (Char.ofNat 12)
  | 'n' => some '\n'
  | 'r' => some '\r'
  | 't' => some '\t'
  | _ => none

/-- Parse the body of a JSON string after the opening quote, returning the
decoded characters and the input after the closing quote. -/
def parseStrBody : List Char → Option (List Char × List Char)
  | [] => none
  | '"' :: rest => some ([], rest)
  | '\\' :: rest =>
    match rest with
    | [] => none
    | c :: rest2 =>
      match escMap c with
      | some e => (parseStrBody rest2).map (fun p => (e :: p.1, p.2))
      | none => none
  | c :: rest => (parseStrBody rest).map (fun p => (c :: p.1, p.2))

/-- Take a maximal digit prefix. -/
def takeDigits : List Char → List Char × List Char
  | [] => ([], [])
  | c :: cs =>
    if c.isDigit then
      let p := takeDigits cs
      (c :: p.1, p.2)
    else ([], c :: cs)

/-- Numeric value of a digit string. -/
def digitsVal (ds : List Char) : Nat :=
  ds.foldl (fun acc c => acc * 10 + (c.toNat - '0'.toNat)) 0

/-- Parse an integer literal (optional minus sign, then digits). -/
def parseNum : List Char → Option (Int × List Char)
  | '-' :: rest =>
    let p := takeDigits rest
    if p.1.isEmpty then none else some (-(digitsVal p.1 : Int), p.2)
  | cs =>
    let p := takeDigits cs
    if p.1.isEmpty then none else some ((digitsVal p.1 : Int), p.2)

/-- Parser modes: a single value, the members of an object (after at least
one member is required), the elements of an array. -/
inductive PM where
  | val
  | mem
  | elems

/-- Fuel-based recursive-descent JSON parser.  In mode `.mem` it parses
`"key": value (, "key": value)* \x7d` and returns the object; in mode
`.elems` it parses `value (, value)* ]` and returns the array. -/
def parseF : Nat → PM → List Char → Option (Json × List Char)
  | 0, _, _ => none
  | fuel + 1, PM.val, cs =>
    match skipWs cs with
    | [] => none
    | c :: rest =>
      if c = '\x7b' then
        match skipWs rest with
        | '\x7d' :: r2 => some (.obj [], r2)
        | _ => parseF fuel PM.mem rest
      else if c = '[' then
        match skipWs rest with
        | ']' :: r2 => some (.arr [], r2)
        | _ => parseF fuel PM.elems rest
      else if c = '"' then
        (parseStrBody rest).map (fun p => (.str (String.mk p.1), p.2))
      else if c = 'n' then
        match rest with
        | 'u' :: 'l' :: 'l' :: r2 => some (.null, r2)
        | _ => none
      else if c = 't' then
        match rest with
        | 'r' :: 'u' :: 'e' :: r2 => some (.bool true, r2)
        | _ => none
      else if c = 'f' then
        match rest with
        | 'a' :: 'l' :: 's' :: 'e' :: r2 => some (.bool false, r2)
        | _ => none
      else if c.isDigit ∨ c = '-' then
        (parseNum (c :: rest)).map (fun p => (.num p.1, p.2))
      else none
  | fuel + 1, PM.mem, cs =>
    match skipWs cs with
    | '"' :: rest =>
      match parseStrBody rest with
      | none => none
      | some (key, r1) =>
        match skipWs r1 with
        | ':' :: r2 =>
          match parseF fuel PM.val r2 with
          | none => none
          | some (v, r3) =>
            match skipWs r3 with
            | ',' :: r4 =>
              match parseF fuel PM.mem r4 with
              | some (.obj ms, r5) => some (.obj ((String.mk key, v) :: ms), r5)
              | _ => none
            | '\x7d' :: r4 => some (.obj [(String.mk key, v)], r4)
            | _ => none
        | _ => none
    | _ => none
  | fuel + 1, PM.elems, cs =>
    match parseF fuel PM.val cs with
    | none => none
    | some (v, r1) =>
      match skipWs r1 with
      | ',' :: r2 =>
        match parseF fuel PM.elems r2 with
        | some (.arr es, r3) => some (.arr (v :: es), r3)
        | _ => none
      | ']' :: r2 => some (.arr [v], r2)
      | _ => none

/-- Model of Python `json.loads`: parse one value, require only whitespace
to remain, otherwise fail (raise).  `none` models a raised exception. -/
def json_loads (s : String) : Option Json :=
  match parseF (s.length + 1) PM.val s.data with
  | some (v, rest) => if skipWs rest = [] then some v else none
  | none => none

/-- First index of a character in a list, if any (`str.find` helper). -/
def findIdxA : List Char → Char → Option Nat
  | [], _ => none
  | c :: cs, t => if c = t then some 0 else (findIdxA cs t).map (· + 1)

/-- Last index of a character in a list, if any (`str.rfind` helper). -/
def rfindIdxA : List Char → Char → Option Nat
  | [], _ => none
  | c :: cs, t =>
    match rfindIdxA cs t with
    | some j => some (j + 1)
    | none => if c = t then some 0 else none

/-- Python `text.find(ch)`: first index, or `-1` when absent. -/
def strFind (s : String) (c : Char) : Int :=
  match findIdxA s.data c with
  | some n => (n : Int)
  | none => -1

/-- Python `text.rfind(ch)`: last index, or `-1` when absent. -/
def strRfind (s : String) (c : Char) : Int :=
  match rfindIdxA s.data c with
  | some n => (n : Int)
  | none => -1

/-- Python slice `s[a:b]` for the non-negative indices this code uses. -/
def pySlice (s : String) (a b : Int) : String :=
  String.mk (((s.data).drop a.toNat).take (b.toNat - a.toNat))

/-- `core/services/ai.py::extract_json`: take the substring from the first
brace to one past the last closing brace and run `json.loads` on it; any
exception (including an unparsable slice) yields `None`. -/
def extract_json (text : String) : Option Json :=
  let start := strFind text '\x7b'
  let stop := strRfind text '\x7d' + 1
  if start = -1 ∨ stop = -1 then none
  else json_loads (pySlice text start stop)

/-- One entry of the `AI_MODELS` backend catalog in `core/services/ai.py`. -/
structure ModelCfg where
  name : String
  day_limit_requests : Nat
  is_visual : Bool
  provider : String
  tier : String
deriving DecidableEq, Repr

/-- The static backend catalog `AI_MODELS` (`tier` embeds the Python key
`type`, a Lean keyword). -/
def AI_MODELS : List ModelCfg :=
  [ ⟨"gemma-3-27b-it", 14400, true, "Google", "premium"⟩,
    ⟨"gemma-3-12b-it", 14400, false, "Google", "basic"⟩,
    ⟨"gemini-2.0-flash-lite", 1500, false, "Google", "premium"⟩,
    ⟨"gemini-2.0-flash", 1500, false, "Google", "premium"⟩,
    ⟨"llama-3.3-70b-versatile", 1000, false, "Groq", "premium"⟩,
    ⟨"qwen/qwen3-32b", 1000, false, "Groq", "premium"⟩ ]

/-- Outcome of one adapter invocation (one backend, one attempt): either a
raised transport/API error or the raw response text.  The oracle argument
of `generate_text` assigns an outcome to every (backend, attempt) pair. -/
inductive AdapterResult where
  | transportError
  | text (s : String)

/-- The body of one attempt of the `generate_text` loop: what the attempt
would `return` (`none` models every `continue` path — transport error,
unknown provider, no JSON extracted, string result that fails to re-parse,
unexpected extracted type). -/
def attemptResult (oracle : ModelCfg → Nat → AdapterResult) (m : ModelCfg) (a : Nat) :
    Option Json :=
  if m.provider = "Google" ∨ m.provider = "Groq" then
    match oracle m a with
    | .transportError => none
    | .text s =>
      match extract_json s with
      | none => none
      | some (.obj kvs) => some (.obj kvs)
      | some (.str s2) => json_loads s2
      | some _ => none
  else none

/-- `core/services/ai.py::generate_text`, after the shuffle: iterate over
the (already shuffled) model list, two attempts per model, returning the
first attempt that yields a value; `none` models the final
`RuntimeError("All models failed to generate valid JSON")`. -/
def generate_text (models : List ModelCfg) (oracle : ModelCfg → Nat → AdapterResult) :
    Option Json :=
  match models with
  | [] => none
  | m :: rest =>
    match attemptResult oracle m 0 with
    | some v => some v
    | none =>
      match attemptResult oracle m 1 with
      | some v => some v
      | none => generate_text rest oracle

/-- One whole `generate_text` call as seen from the module state: the call
copies the shared catalog (`AI_MODELS.copy()`), shuffles the copy in place
(`random.shuffle(models)`, modelled by the `shuffle` argument), and runs
the attempt loop on the copy.  The second component is the shared catalog
after the call returns. -/
def generate_text_call (catalog : List ModelCfg) (shuffle : List ModelCfg → List ModelCfg)
    (oracle : ModelCfg → Nat → AdapterResult) : Option Json × List ModelCfg :=
  let models := shuffle catalog
  (generate_text models oracle, catalog)

/-- `core/models.py::GenerationStatus.Status`. -/
inductive GStatus where
  | pending
  | in_progress
  | done
  | failed
deriving DecidableEq, Repr

/-- One persisted state of the `GenerationStatus` row (what an external
poller observes after each `status.save(...)`). -/
structure Snapshot where
  status : GStatus
  total : Nat
  completed : Nat
deriving DecidableEq, Repr

/-- A persisted `LessonBlock` row.  `id` models the database identity used
as the `order_by('order', 'id')` tie-break; the task assigns ids in
creation order.  `title`/`content` hold the JSON values the code stores
(the code never checks their type). -/
structure LessonBlock where
  id : Nat
  order : Nat
  title : Json
  content : Json
  has_task : Bool

/-- Result of one `generate_text(...)` call as observed by a task: the call
either raises (`ProvidersExhausted` or any other exception) or returns a
JSON value. -/
inductive GTRes where
  | raise
  | ok (v : Json)

/-- The dict-coercion idiom the tasks apply to every `generate_text`
result (structure: lines 51-67; block: lines 100-111; improve: lines
199-207 of `core/tasks.py`): a raised call fails; a returned dict is used
as-is; a returned string goes through `json.loads` and must parse to a
dict; any other value fails.  All failure modes (the explicit string-parse
`except`, the explicit `isinstance` ValueError, and the AttributeError a
later `.get` raises on a non-dict, each caught by an enclosing `except`)
are folded into `none`. -/
def coerceDict : GTRes → Option (List (String × Json))
  | .raise => none
  | .ok v =>
    match v with
    | .obj kvs => some kvs
    | .str s =>
      match json_loads s with
      | some (.obj kvs) => some kvs
      | _ => none
    | _ => none

/-- Whether a JSON value is a list (the `isinstance(blocks_hints, list)`
check). -/
def isArr : Json → Bool
  | .arr _ => true
  | _ => false

/-- The default title `f"Блок \x7bi\x7d"` for a section whose generated
`title` field is missing or falsy. -/
def defaultTitle (i : Nat) : String := "Блок " ++ toString i

/-- Python `d.get(k) or default` (used for `title` and `content`). -/
def getOrDefault (kvs : List (String × Json)) (k : String) (dflt : Json) : Json :=
  match jget kvs k with
  | some v => if truthy v then v else dflt
  | none => dflt

/-- Lines 98-147 of `generate_lesson_task`: process one hint with 1-based
index `i` from progress state `(completed, total)`.  `res` is the
dispatcher outcome for this hint and `persistOk` tells whether the
`LessonBlock.objects.create` transaction commits.  Returns the new state,
the persisted block (if any) and the list of `GenerationStatus` saves this
step performs. -/
def hintStep (st : Nat × Nat) (res : GTRes) (persistOk : Bool) (i : Nat) :
    (Nat × Nat) × Option LessonBlock × List Snapshot :=
  let failStep : (Nat × Nat) × Option LessonBlock × List Snapshot :=
    if st.2 > 0 then
      ((st.1, st.2 - 1), none, [⟨.in_progress, st.2 - 1, st.1⟩])
    else (st, none, [])
  match coerceDict res with
  | none => failStep
  | some kvs =>
    let title := getOrDefault kvs "title" (.str (defaultTitle i))
    let content := getOrDefault kvs "content" (.str "")
    let has_task := truthy ((jget kvs "has_task").getD (.bool false))
    if persistOk then
      ((st.1 + 1, st.2), some ⟨i, i, title, content, has_task⟩,
        [⟨.in_progress, st.2, st.1 + 1⟩])
    else failStep

/-- Inputs of one `generate_lesson_task` run: the `total` stored in the
pre-existing `GenerationStatus` row (`0` for a fresh row), the outcome of
the structure-phase dispatcher call, and per-hint oracles for the section
dispatcher calls and the block-persistence transactions (indexed by the
1-based hint index). -/
structure TaskInput where
  initialTotal : Nat
  structureRes : GTRes
  blockRes : Nat → GTRes
  persistOk : Nat → Bool

/-- The per-hint loop (lines 75-147): fold `hintStep` over the hints,
collecting persisted blocks and status saves.  The hint values themselves
only influence the prompt text, which does not affect persisted state. -/
def runHints (inp : TaskInput) : List Json → Nat → Nat × Nat →
    (Nat × Nat) × List LessonBlock × List Snapshot
  | [], _, st => (st, [], [])
  | _h :: rest, i, st =>
    let step := hintStep st (inp.blockRes i) (inp.persistOk i) i
    let tail := runHints inp rest (i + 1) step.1
    (tail.1, step.2.1.toList ++ tail.2.1, step.2.2 ++ tail.2.2)

/-- The `order_by('order', 'id')` sort key of the reconciliation query. -/
def blkLe (a b : LessonBlock) : Prop :=
  a.order < b.order ∨ (a.order = b.order ∧ a.id ≤ b.id)

instance : DecidableRel blkLe := fun a b => by
  unfold blkLe; exact inferInstance

/-- Lines 151-154: renumber a sorted block list to `idx, idx+1, ...`,
saving only the blocks whose `order` differs; the second component counts
the writes (`block.save` calls). -/
def renumber : List LessonBlock → Nat → List LessonBlock × Nat
  | [], _ => ([], 0)
  | b :: rest, idx =>
    let tail := renumber rest (idx + 1)
    if b.order = idx then (b :: tail.1, tail.2)
    else ({ b with order := idx } :: tail.1, tail.2 + 1)

/-- Lines 149-157 of `generate_lesson_task`: fetch the lesson's blocks
ordered by `(order, id)` and renumber them contiguously from 1. -/
def reconcile (blocks : List LessonBlock) : List LessonBlock × Nat :=
  renumber (List.insertionSort blkLe blocks) 1

/-- The observable outcome of one `generate_lesson_task` run: the final
persisted `GenerationStatus` row, the persisted blocks after
reconciliation, and the ordered lists of `GenerationStatus` saves made
before and from the save that sets `total` onward. -/
structure RunResult where
  final : Snapshot
  blocks : List LessonBlock
  preSnaps : List Snapshot
  postSnaps : List Snapshot

/-- `core/tasks.py::generate_lesson_task` from the point where the lesson
row was found.  Every `status.save(...)` appends the persisted row state to
`preSnaps` (saves before `total` is set: the initial save and the early
FAILED saves) or to `postSnaps` (the outline save of `total` and every
later save, the final one included). -/
def generate_lesson_task (inp : TaskInput) : RunResult :=
  let snap0 : Snapshot := ⟨.in_progress, inp.initialTotal, 0⟩
  let failSnap : Snapshot := ⟨.failed, inp.initialTotal, 0⟩
  match coerceDict inp.structureRes with
  | none => ⟨failSnap, [], [snap0, failSnap], []⟩
  | some kvs =>
    match (jget kvs "blocks").getD (.arr []) with
    | .arr hints =>
      let outlineSnap : Snapshot := ⟨.in_progress, hints.length, 0⟩
      let loop := runHints inp hints 1 (0, hints.length)
      let c := loop.1.1
      let t := loop.1.2
      let finalStatus : GStatus :=
        if c = t then .done else if c = 0 then .failed else .in_progress
      let finalSnap : Snapshot := ⟨finalStatus, t, c⟩
      ⟨finalSnap, (reconcile loop.2.1).1, [snap0],
        outlineSnap :: loop.2.2 ++ [finalSnap]⟩
    | _ => ⟨failSnap, [], [snap0, failSnap], []⟩

/-- The run reaches the finalization line (no early FAILED return, no
uncaught exception): the structure call resolved to a dict and its
`blocks` entry was absent or a list. -/
def reachesFinalization (inp : TaskInput) : Bool :=
  match coerceDict inp.structureRes with
  | none => false
  | some kvs =>
    match (jget kvs "blocks").getD (.arr []) with
    | .arr _ => true
    | _ => false

/-- `core/models.py::ImproveStatus.Status`. -/
inductive IStatus where
  | pending
  | in_progress
  | done
  | failed
deriving DecidableEq, Repr

/-- The success condition of `improve_block_task`'s generation step: the
dispatcher returned (directly or through a re-parsed string) a dict whose
`improved_content` entry exists and is truthy (`if not new_content` fails).
Characterisation used to state C7; the task itself is `improve_block_task`
below. -/
def improvedOf (res : GTRes) : Option Json :=
  match coerceDict res with
  | none => none
  | some kvs =>
    match jget kvs "improved_content" with
    | some w => if truthy w then some w else none
    | none => none

/-- `core/tasks.py::improve_block_task` from the generation step (the rows
were found and the IN_PROGRESS save is done).  Input: the section's current
persisted content and the dispatcher outcome.  Output: the section's
persisted content after the run, the terminal `ImproveStatus.status`, and
its `result_content` (initially null).  The `try` body overwrites the
block only after a truthy `improved_content` is extracted; every failure
path (raise, unparsable string, non-dict, missing or falsy field) lands in
the `except` that sets FAILED without touching the block. -/
def improve_block_task (content0 : Json) (aiRes : GTRes) :
    Json × IStatus × Option Json :=
  let fail : Json × IStatus × Option Json := (content0, .failed, none)
  match coerceDict aiRes with
  | none => fail
  | some kvs =>
    match jget kvs "improved_content" with
    | some w => if truthy w then (w, .done, some w) else fail
    | none => fail

/-- `core/models.py::GenerationStatus.progress_percent`.  The Python body
computes `min(100, int((completed / total) * 100))` with float division;
for the range property this is modelled by the exact rational floor
`completed * 100 / total` (both are non-negative and capped by the same
`min`). -/
def progress_percent (completed total : Nat) : Nat :=
  if total = 0 then 0
  else min 100 (completed * 100 / total)

/-- Relation between consecutive persisted progress snapshots of the
per-hint loop: a successful hint increments `completed` by one, a failed
hint decrements `total` by one (`Nat` subtraction is floored at 0). -/
def stepRel (a b : Snapshot) : Prop :=
  (b.completed = a.completed + 1 ∧ b.total = a.total) ∨
  (b.completed = a.completed ∧ b.total = a.total - 1)

/-! ## Helper lemmas -/

/-- Renumbering a list whose `order` fields are already `start, start+1, …`
changes nothing and performs no writes. -/
theorem renumber_id (l : List LessonBlock) (start : Nat)
    (h : ∀ k (hk : k < l.length), l[k].order = start + k) :
    renumber l start = (l, 0) := by
  induction l generalizing start with
  | nil => rfl
  | cons b rest ih =>
    have hb : b.order = start := by
      have := h 0 (by simp)
      simpa using this
    have hr : ∀ k (hk : k < rest.length), rest[k].order = (start + 1) + k := by
      intro k hk
      have := h (k + 1) (by simpa using Nat.succ_lt_succ hk)
      simpa [Nat.add_comm, Nat.add_assoc, Nat.add_left_comm] using this
    simp [renumber, hb, ih (start + 1) hr]

/-- A list with contiguous `1..N` orders is sorted for the
`(order, id)` key. -/
theorem sorted_of_contiguous (l : List LessonBlock)
    (h : ∀ k (hk : k < l.length), l[k].order = k + 1) :
    List.Sorted blkLe l := by
  rw [List.Sorted, List.pairwise_iff_getElem]
  intro i j hi hj hij
  left
  rw [h i hi, h j hj]
  omega

/-! ## Claim theorems -/

/-- C10: for every `GenerationStatus` record (any non-negative `total` and
`completed`, here `Nat` so non-negativity is by type), `progress_percent`
returns a value in `0..100`, and returns `0` when `total = 0`, so no
division by zero occurs. -/
theorem progress_percent_range (completed total : Nat) :
    progress_percent completed total ≤ 100 ∧
    (total = 0 → progress_percent completed total = 0) := by
  unfold progress_percent
  by_cases h : total = 0
  · simp [h]
  · exact ⟨by simp [h], fun h0 => absurd h0 h⟩

/-- Witness for C10 at `completed = 7`, `total = 0`. -/
theorem progress_percent_range_witness :
    progress_percent 7 0 ≤ 100 ∧ progress_percent 7 0 = 0 :=
  ⟨(progress_percent_range 7 0).1, (progress_percent_range 7 0).2 rfl⟩

/-- C9 counterexample: `generate_text` copies the shared catalog before
shuffling (`AI_MODELS.copy()` on line 82 of `core/services/ai.py`), so a
call whose shuffle reverses the ordering still leaves the shared catalog
list unchanged — the claim that the shared catalog's element order is
mutated by the call is false. -/
theorem shared_catalog_unchanged_cex :
    (generate_text_call AI_MODELS List.reverse
      (fun _ _ => AdapterResult.transportError)).2 = AI_MODELS ∧
    List.reverse AI_MODELS ≠ AI_MODELS :=
  ⟨rfl, by decide⟩

/-- C9 amended: each Dispatcher call shuffles a per-call copy of the
catalog in place; the backend ordering used by the call is the shuffled
copy's ordering, and the shared catalog list is not mutated. -/
theorem shuffle_applies_to_copy (catalog : List ModelCfg)
    (shuffle : List ModelCfg → List ModelCfg)
    (oracle : ModelCfg → Nat → AdapterResult) :
    (generate_text_call catalog shuffle oracle).2 = catalog ∧
    (generate_text_call catalog shuffle oracle).1 =
      generate_text (shuffle catalog) oracle :=
  ⟨rfl, rfl⟩

/-- C7: for every section-improvement run that reaches the generation
step, any failure — a raised dispatcher call, an unparsable string result,
a non-dict result, a missing or falsy `improved_content` field — leaves
the section's persisted content unchanged with terminal status FAILED;
only a truthy `improved_content` overwrites the content, with status DONE
and `result_content` equal to the new content. -/
theorem improve_terminal_spec (content0 : Json) (res : GTRes) :
    (improvedOf res = none →
      improve_block_task content0 res = (content0, IStatus.failed, none)) ∧
    (∀ v, improvedOf res = some v →
      improve_block_task content0 res = (v, IStatus.done, some v)) := by
  unfold improvedOf improve_block_task
  rcases hc : coerceDict res with _ | kvs
  · simp
  · rcases hg : jget kvs "improved_content" with _ | w
    · simp [hg]
    · by_cases ht : truthy w = true
      · simp [hg, ht]
      · simp [hg, ht]

/-- Witness for C7: a raised dispatcher call preserves the content; a
truthy `improved_content` overwrites it. -/
theorem improve_terminal_spec_witness :
    improve_block_task (Json.str "old") GTRes.raise =
      (Json.str "old", IStatus.failed, none) ∧
    improve_block_task (Json.str "old")
        (GTRes.ok (Json.obj [("improved_content", Json.str "new")])) =
      (Json.str "new", IStatus.done, some (Json.str "new")) :=
  ⟨(improve_terminal_spec (Json.str "old") GTRes.raise).1 rfl,
   (improve_terminal_spec (Json.str "old") _).2 (Json.str "new") rfl⟩

/-- C8: the post-loop sequence-number reconciliation is idempotent —
applied to a block list whose orders are already the contiguous range
`1..N` (hence already sorted for the `(order, id)` key), it performs no
writes and leaves every record unchanged. -/
theorem reconcile_idempotent (blocks : List LessonBlock)
    (h : ∀ k (hk : k < blocks.length), blocks[k].order = k + 1) :
    reconcile blocks = (blocks, 0) := by
  unfold reconcile
  rw [List.Sorted.insertionSort_eq (sorted_of_contiguous blocks h)]
  exact renumber_id blocks 1 (by intro k hk; rw [h k hk]; omega)

/-- Witness for C8 on a concrete already-contiguous two-block list. -/
theorem reconcile_idempotent_witness :
    reconcile [⟨5, 1, Json.null, Json.null, false⟩,
               ⟨2, 2, Json.null, Json.null, true⟩] =
      ([⟨5, 1, Json.null, Json.null, false⟩,
        ⟨2, 2, Json.null, Json.null, true⟩], 0) :=
  reconcile_idempotent _ (by
    intro k hk
    rcases k with _ | _ | k
    · rfl
    · rfl
    · simp only [List.length_cons, List.length_nil] at hk
      omega)

/-- C2: a run that reaches the finalization line computes its terminal
status as DONE if `completed = total`, else FAILED if `completed = 0`,
else IN_PROGRESS; in particular `total = completed = 0` resolves to
DONE. -/
theorem generation_finalization_rule (inp : TaskInput)
    (h : reachesFinalization inp = true) :
    ((generate_lesson_task inp).final.status =
      if (generate_lesson_task inp).final.completed =
          (generate_lesson_task inp).final.total then GStatus.done
      else if (generate_lesson_task inp).final.completed = 0 then GStatus.failed
      else GStatus.in_progress) ∧
    ((generate_lesson_task inp).final.total = 0 →
      (generate_lesson_task inp).final.completed = 0 →
      (generate_lesson_task inp).final.status = GStatus.done) := by
  rcases hs : coerceDict inp.structureRes with _ | kvs
  · simp only [reachesFinalization, hs] at h
    exact absurd h (by decide)
  · simp only [reachesFinalization, hs] at h
    rcases hb : (jget kvs "blocks").getD (.arr []) with _ | b | n | s | hints | kvs2 <;>
        simp only [hb] at h <;> try exact absurd h (by decide)
    simp only [generate_lesson_task, hs, hb]
    refine ⟨trivial, ?_⟩
    intro h0 hc
    rw [hc, h0]
    simp

/-- Witness for C2 at a run whose outline yields an empty hint list:
finalization is reached with `total = completed = 0` and resolves DONE. -/
theorem generation_finalization_rule_witness :
    reachesFinalization ⟨0, GTRes.ok (Json.obj [("blocks", Json.arr [])]),
        fun _ => GTRes.raise, fun _ => true⟩ = true ∧
    (generate_lesson_task ⟨0, GTRes.ok (Json.obj [("blocks", Json.arr [])]),
        fun _ => GTRes.raise, fun _ => true⟩).final.status = GStatus.done :=
  ⟨rfl, ((generation_finalization_rule
      ⟨0, GTRes.ok (Json.obj [("blocks", Json.arr [])]),
        fun _ => GTRes.raise, fun _ => true⟩ rfl).2 rfl rfl)⟩

/-- C5 counterexample: a per-section dispatcher result that is an empty
dict — missing both required fields `title` and `content` — is *not*
treated as a failure: the block is persisted with the defaulted title
`Блок 1` and empty content, `completed` is incremented and `total` is not
decremented, refuting the claim. -/
theorem missing_fields_persisted_cex :
    jget ([] : List (String × Json)) "title" = none ∧
    jget ([] : List (String × Json)) "content" = none ∧
    (generate_lesson_task ⟨0, GTRes.ok (Json.obj [("blocks", Json.arr [Json.str "t"])]),
        fun _ => GTRes.ok (Json.obj []), fun _ => true⟩).blocks =
      [⟨1, 1, Json.str (defaultTitle 1), Json.str "", false⟩] ∧
    (generate_lesson_task ⟨0, GTRes.ok (Json.obj [("blocks", Json.arr [Json.str "t"])]),
        fun _ => GTRes.ok (Json.obj []), fun _ => true⟩).final =
      ⟨GStatus.done, 1, 1⟩ :=
  ⟨rfl, rfl, rfl, rfl⟩

/-- C5 amended: a dict result with missing `title`/`content` fields is a
*success*: the defaults (`Блок i`, empty string) are substituted, the
record is persisted and `completed` is incremented; the decrement-and-skip
failure path is taken for raised dispatcher calls (and likewise unparsable
or non-dict results), with `total` decremented by one floored at zero and
no record persisted. -/
theorem hint_missing_fields_defaulted (c t i : Nat) (kvs : List (String × Json))
    (htl : jget kvs "title" = none) (hct : jget kvs "content" = none) :
    hintStep (c, t) (GTRes.ok (Json.obj kvs)) true i =
      ((c + 1, t), some ⟨i, i, Json.str (defaultTitle i), Json.str "",
        truthy ((jget kvs "has_task").getD (Json.bool false))⟩,
       [⟨GStatus.in_progress, t, c + 1⟩]) ∧
    (∀ pOk : Bool, hintStep (c, t) GTRes.raise pOk i =
      if 0 < t then ((c, t - 1), none, [⟨GStatus.in_progress, t - 1, c⟩])
      else ((c, t), none, [])) := by
  constructor
  · simp [hintStep, coerceDict, getOrDefault, htl, hct]
  · intro pOk
    simp only [hintStep, coerceDict]

/-- Witness for C5 amended at the empty dict and a raised call. -/
theorem hint_missing_fields_defaulted_witness :
    hintStep (0, 1) (GTRes.ok (Json.obj [])) true 1 =
      ((1, 1), some ⟨1, 1, Json.str (defaultTitle 1), Json.str "", false⟩,
       [⟨GStatus.in_progress, 1, 1⟩]) ∧
    hintStep (0, 1) GTRes.raise true 1 =
      ((0, 0), none, [⟨GStatus.in_progress, 0, 0⟩]) :=
  ⟨(hint_missing_fields_defaulted 0 1 1 [] rfl rfl).1,
   by rw [(hint_missing_fields_defaulted 0 1 1 [] rfl rfl).2 true]; rfl⟩

/-- C6 counterexample: an outline result that *lacks* the hint-list field
entirely (`structure.get("blocks", [])` defaults to the empty list) does
not fail: the job resolves DONE with zero sections, refuting the claim
that a missing hint-list field transitions the job to FAILED. -/
theorem outline_missing_field_cex :
    jget ([] : List (String × Json)) "blocks" = none ∧
    (generate_lesson_task ⟨0, GTRes.ok (Json.obj []), fun _ => GTRes.raise,
        fun _ => true⟩).final.status = GStatus.done ∧
    GStatus.done ≠ GStatus.failed :=
  ⟨rfl, rfl, by decide⟩

/-- C6 amended: only when the hint-list field is *present and not a list*
does the job transition directly to terminal FAILED with no section
generation attempted (no blocks persisted, no post-outline saves); a
missing field defaults to the empty list and proceeds. -/
theorem outline_nonlist_fails (inp : TaskInput) (kvs : List (String × Json))
    (v : Json) (h1 : coerceDict inp.structureRes = some kvs)
    (h2 : jget kvs "blocks" = some v) (h3 : isArr v = false) :
    (generate_lesson_task inp).final.status = GStatus.failed ∧
    (generate_lesson_task inp).blocks = [] ∧
    (generate_lesson_task inp).postSnaps = [] := by
  rcases v with _ | b | n | s | es | kv2 <;> try cases h3
  all_goals simp [generate_lesson_task, h1, h2]

/-- Witness for C6 amended: a `blocks` entry holding a number. -/
theorem outline_nonlist_fails_witness :
    (generate_lesson_task ⟨0, GTRes.ok (Json.obj [("blocks", Json.num 3)]),
        fun _ => GTRes.raise, fun _ => true⟩).final.status = GStatus.failed ∧
    (generate_lesson_task ⟨0, GTRes.ok (Json.obj [("blocks", Json.num 3)]),
        fun _ => GTRes.raise, fun _ => true⟩).blocks = [] ∧
    (generate_lesson_task ⟨0, GTRes.ok (Json.obj [("blocks", Json.num 3)]),
        fun _ => GTRes.raise, fun _ => true⟩).postSnaps = [] :=
  outline_nonlist_fails _ [("blocks", Json.num 3)] (Json.num 3) rfl rfl rfl

/-- Object-member parsing only ever returns an object value. -/
theorem parseF_mem_obj (f : Nat) (cs : List Char) (v : Json) (r : List Char)
    (h : parseF f PM.mem cs = some (v, r)) : ∃ ms, v = Json.obj ms := by
  cases f with
  | zero => simp [parseF] at h
  | succ f =>
    simp only [parseF] at h
    repeat' split at h
    all_goals cases h
    all_goals exact ⟨_, rfl⟩

theorem skipWs_brace (l : List Char) : skipWs ('\x7b' :: l) = '\x7b' :: l := by
  simp [skipWs]

theorem parseF_val_brace (f : Nat) (cs t : List Char) (v : Json) (r : List Char)
    (h : parseF f PM.val cs = some (v, r)) (hb : skipWs cs = '\x7b' :: t) :
    ∃ ms, v = Json.obj ms := by
  cases f with
  | zero => simp [parseF] at h
  | succ f =>
    simp only [parseF, hb, reduceIte] at h
    split at h
    · cases h
      exact ⟨[], rfl⟩
    · exact parseF_mem_obj f t v r h

theorem findIdxA_drop (l : List Char) (c : Char) (n : Nat)
    (h : findIdxA l c = some n) : ∃ suf, l.drop n = c :: suf := by
  induction l generalizing n with
  | nil => simp [findIdxA] at h
  | cons a rest ih =>
    simp only [findIdxA] at h
    by_cases hac : a = c
    · subst hac
      rw [if_pos rfl] at h
      cases h
      exact ⟨rest, by simp⟩
    · rw [if_neg hac] at h
      rcases hr : findIdxA rest c with _ | m <;> rw [hr] at h
      · cases h
      · simp only [Option.map_some'] at h
        cases h
        obtain ⟨suf, hs⟩ := ih m hr
        exact ⟨suf, by simpa using hs⟩

theorem json_loads_brace (s : String) (t : List Char) (v : Json)
    (h : json_loads s = some v) (hd : s.data = '\x7b' :: t) :
    ∃ ms, v = Json.obj ms := by
  unfold json_loads at h
  rcases hp : parseF (s.length + 1) PM.val s.data with _ | ⟨w, rest⟩
  · simp only [hp] at h
    cases h
  · simp only [hp] at h
    by_cases hrest : skipWs rest = []
    · rw [if_pos hrest] at h
      cases h
      exact parseF_val_brace _ _ t _ _ hp (by rw [hd]; exact skipWs_brace t)
    · rw [if_neg hrest] at h
      cases h

theorem strRfind_ge (s : String) (c : Char) : -1 ≤ strRfind s c := by
  rw [strRfind]
  rcases h : rfindIdxA s.data c with _ | n
  · simp
  · simp only [h]
    omega

theorem extract_json_obj (s : String) (v : Json) (h : extract_json s = some v) :
    ∃ ms, v = Json.obj ms := by
  simp only [extract_json] at h
  by_cases hc : strFind s '\x7b' = -1 ∨ strRfind s '\x7d' + 1 = -1
  · rw [if_pos hc] at h
    cases h
  · rw [if_neg hc] at h
    push_neg at hc
    obtain ⟨h1, _⟩ := hc
    have hfind : ∃ n, findIdxA s.data '\x7b' = some n := by
      rcases hf : findIdxA s.data '\x7b' with _ | n
      · exact absurd (by simp [strFind, hf]) h1
      · exact ⟨n, rfl⟩
    obtain ⟨n, hf⟩ := hfind
    have hstart : strFind s '\x7b' = (n : Int) := by simp [strFind, hf]
    rw [hstart] at h
    rcases hk : (strRfind s '\x7d' + 1).toNat - ((n : Int)).toNat with _ | k
    · rw [pySlice, hk] at h
      simp only [List.take_zero] at h
      rw [show json_loads (String.mk []) = none from rfl] at h
      cases h
    · obtain ⟨suf, hdrop⟩ := findIdxA_drop _ _ _ hf
      rw [pySlice, hk] at h
      rw [show ((n : Int)).toNat = n from Int.toNat_natCast n] at h
      rw [hdrop] at h
      exact json_loads_brace _ _ _ h rfl

/-- C3 counterexample: the input consisting of a JSON object followed by a
stray closing brace contains a balanced brace-delimited substring (its
first seven characters) holding valid JSON, yet `extract_json` returns
`None`, because it slices from the first opening brace to one past the
*last* closing brace and that wider slice is not valid JSON — refuting the
claim that any balanced valid-JSON substring is returned. -/
theorem extract_json_balanced_cex :
    pySlice "\x7b\"a\":1\x7d\x7d" 0 7 = "\x7b\"a\":1\x7d" ∧
    json_loads "\x7b\"a\":1\x7d" = some (Json.obj [("a", Json.num 1)]) ∧
    extract_json "\x7b\"a\":1\x7d\x7d" = none :=
  ⟨rfl, rfl, rfl⟩

/-- C3 amended: if the input contains no opening brace the extractor
returns `None`; and whenever the specific substring from the first opening
brace to one past the last closing brace parses as JSON, the extractor
returns exactly that parse (it does not search for arbitrary balanced
substrings). -/
theorem extract_json_span (s : String) :
    (strFind s '\x7b' = -1 → extract_json s = none) ∧
    (∀ v, strFind s '\x7b' ≠ -1 →
      json_loads (pySlice s (strFind s '\x7b') (strRfind s '\x7d' + 1)) = some v →
      extract_json s = some v) := by
  constructor
  · intro h
    simp only [extract_json]
    rw [if_pos (Or.inl h)]
  · intro v hne hl
    simp only [extract_json]
    rw [if_neg]
    · exact hl
    · push_neg
      refine ⟨hne, ?_⟩
      have := strRfind_ge s '\x7d'
      omega

/-- Witness for C3 amended: a brace-free input and an input whose
first-brace-to-last-brace span is valid JSON. -/
theorem extract_json_span_witness :
    extract_json "no braces here" = none ∧
    extract_json "x\x7b\"k\":2\x7d" = some (Json.obj [("k", Json.num 2)]) :=
  ⟨(extract_json_span "no braces here").1 rfl,
   (extract_json_span "x\x7b\"k\":2\x7d").2 (Json.obj [("k", Json.num 2)])
     (by decide) rfl⟩

/-- One attempt can only hand back an object: `extract_json` never returns
a non-object (so the string-reparse branch of `generate_text` is dead). -/
theorem attemptResult_obj (oracle : ModelCfg → Nat → AdapterResult) (m : ModelCfg)
    (a : Nat) (v : Json) (h : attemptResult oracle m a = some v) :
    ∃ kvs, v = Json.obj kvs := by
  unfold attemptResult at h
  split at h
  · rcases ho : oracle m a with _ | s <;> simp only [ho] at h
    · cases h
    · rcases he : extract_json s with _ | p
      · simp only [he] at h
        cases h
      · obtain ⟨ms, rfl⟩ := extract_json_obj s p he
        simp only [he] at h
        cases h
        exact ⟨ms, rfl⟩
  · cases h

/-- The dispatcher raises exactly when every attempt (two per backend, in
list order) yields nothing. -/
theorem generate_text_none_iff (models : List ModelCfg)
    (oracle : ModelCfg → Nat → AdapterResult) :
    generate_text models oracle = none ↔
      ∀ m ∈ models, ∀ a < 2, attemptResult oracle m a = none := by
  induction models with
  | nil => simp [generate_text]
  | cons m rest ih =>
    constructor
    · intro h
      simp only [generate_text] at h
      rcases h0 : attemptResult oracle m 0 with _ | v <;> rw [h0] at h
      · rcases h1 : attemptResult oracle m 1 with _ | v <;> rw [h1] at h
        · intro m2 hm2 a ha
          rcases List.mem_cons.mp hm2 with rfl | hm2
          · interval_cases a
            · exact h0
            · exact h1
          · exact (ih.mp h) m2 hm2 a ha
        · cases h
      · cases h
    · intro hall
      simp only [generate_text]
      rw [hall m (List.mem_cons_self m rest) 0 (by omega),
          hall m (List.mem_cons_self m rest) 1 (by omega)]
      exact ih.mpr (fun m2 hm2 a ha => hall m2 (List.mem_cons_of_mem m hm2) a ha)

/-- A returned value comes from one of the attempts (two per backend). -/
theorem generate_text_some_mem (models : List ModelCfg)
    (oracle : ModelCfg → Nat → AdapterResult) (v : Json)
    (h : generate_text models oracle = some v) :
    ∃ m ∈ models, ∃ a < 2, attemptResult oracle m a = some v := by
  induction models with
  | nil => cases h
  | cons m rest ih =>
    simp only [generate_text] at h
    rcases h0 : attemptResult oracle m 0 with _ | w <;> rw [h0] at h
    · rcases h1 : attemptResult oracle m 1 with _ | w <;> rw [h1] at h
      · obtain ⟨m2, hm2, a, ha, hh⟩ := ih h
        exact ⟨m2, List.mem_cons_of_mem m hm2, a, ha, hh⟩
      · cases h
        exact ⟨m, List.mem_cons_self m rest, 1, by omega, h1⟩
    · cases h
      exact ⟨m, List.mem_cons_self m rest, 0, by omega, h0⟩

/-- The call consults only attempt indices 0 and 1 of each listed backend. -/
theorem generate_text_congr (models : List ModelCfg)
    (oracle oracle2 : ModelCfg → Nat → AdapterResult)
    (h : ∀ m ∈ models, ∀ a < 2, oracle m a = oracle2 m a) :
    generate_text models oracle = generate_text models oracle2 := by
  induction models with
  | nil => rfl
  | cons m rest ih =>
    have e0 : attemptResult oracle m 0 = attemptResult oracle2 m 0 := by
      unfold attemptResult
      rw [h m (List.mem_cons_self m rest) 0 (by omega)]
    have e1 : attemptResult oracle m 1 = attemptResult oracle2 m 1 := by
      unfold attemptResult
      rw [h m (List.mem_cons_self m rest) 1 (by omega)]
    simp only [generate_text, e0, e1,
      ih (fun m2 hm2 a ha => h m2 (List.mem_cons_of_mem m hm2) a ha)]

/-- C4: for every Dispatcher call over a shuffled ordering of the catalog,
each backend is attempted at most twice (the call depends on, and a result
comes from, attempt indices below 2 only), the call raises
`ProvidersExhausted` (the `RuntimeError`, modelled `none`) iff every
backend/attempt fails to yield a parsed mapping, and any returned value is
a mapping produced by one of the attempts. -/
theorem dispatcher_exhaustion_iff (models : List ModelCfg)
    (oracle : ModelCfg → Nat → AdapterResult) (_hperm : models.Perm AI_MODELS) :
    (generate_text models oracle = none ↔
      ∀ m ∈ models, ∀ a < 2, attemptResult oracle m a = none) ∧
    (∀ v, generate_text models oracle = some v →
      (∃ m ∈ models, ∃ a < 2, attemptResult oracle m a = some v) ∧
      ∃ kvs, v = Json.obj kvs) ∧
    (∀ oracle2, (∀ m ∈ models, ∀ a < 2, oracle m a = oracle2 m a) →
      generate_text models oracle = generate_text models oracle2) := by
  refine ⟨generate_text_none_iff models oracle, ?_, ?_⟩
  · intro v hv
    obtain ⟨m, hm, a, ha, hh⟩ := generate_text_some_mem models oracle v hv
    exact ⟨⟨m, hm, a, ha, hh⟩, attemptResult_obj oracle m a v hh⟩
  · exact fun o2 ho2 => generate_text_congr models oracle o2 ho2

/-- Witness for C4 at the identity shuffle and an all-failing oracle. -/
theorem dispatcher_exhaustion_iff_witness :
    AI_MODELS.Perm AI_MODELS ∧
    (generate_text AI_MODELS (fun _ _ => AdapterResult.transportError) = none ↔
      ∀ m ∈ AI_MODELS, ∀ a < 2,
        attemptResult (fun _ _ => AdapterResult.transportError) m a = none) :=
  ⟨List.Perm.refl AI_MODELS,
   (dispatcher_exhaustion_iff AI_MODELS (fun _ _ => AdapterResult.transportError)
     (List.Perm.refl AI_MODELS)).1⟩


/-- When `total` is positive, every per-hint step either persists a block
and increments `completed` with one save, or decrements `total` by one
with one save. -/
theorem hintStep_shape (st : Nat × Nat) (res : GTRes) (pOk : Bool) (i : Nat)
    (hpos : 0 < st.2) :
    (∃ b, hintStep st res pOk i =
      ((st.1 + 1, st.2), some b, [⟨GStatus.in_progress, st.2, st.1 + 1⟩])) ∨
    hintStep st res pOk i =
      ((st.1, st.2 - 1), none, [⟨GStatus.in_progress, st.2 - 1, st.1⟩]) := by
  unfold hintStep
  rcases hc : coerceDict res with _ | kvs
  · right
    simp [hpos]
  · cases pOk
    · right
      simp [hpos]
    · left
      refine ⟨⟨i, i, getOrDefault kvs "title" (Json.str (defaultTitle i)),
        getOrDefault kvs "content" (Json.str ""),
        truthy ((jget kvs "has_task").getD (Json.bool false))⟩, ?_⟩
      simp [hc]

/-- The loop invariant: starting from `total = completed + remaining`, the
loop ends with `total = completed`, every save keeps `completed ≤ total`,
consecutive saves are related by `stepRel`, and the last save equals the
final loop state. -/
theorem runHints_spec (inp : TaskInput) (hints : List Json) (i c t : Nat)
    (h : t = c + hints.length) :
    (runHints inp hints i (c, t)).1.2 = (runHints inp hints i (c, t)).1.1 ∧
    (∀ s ∈ (runHints inp hints i (c, t)).2.2, s.completed ≤ s.total) ∧
    List.Chain' stepRel
      ((⟨GStatus.in_progress, t, c⟩ : Snapshot) :: (runHints inp hints i (c, t)).2.2) ∧
    ((⟨GStatus.in_progress, t, c⟩ : Snapshot) :: (runHints inp hints i (c, t)).2.2).getLast? =
      some ⟨GStatus.in_progress, (runHints inp hints i (c, t)).1.2,
            (runHints inp hints i (c, t)).1.1⟩ := by
  induction hints generalizing i c t with
  | nil =>
    simp only [runHints, List.length_nil] at h ⊢
    refine ⟨by omega, by simp, by simp, ?_⟩
    simp
  | cons hd rest ih =>
    have hlen : t = c + (rest.length + 1) := by
      simpa [Nat.add_comm, Nat.add_assoc] using h
    have hpos : 0 < t := by omega
    rcases hintStep_shape (c, t) (inp.blockRes i) (inp.persistOk i) i hpos with
      ⟨b, hstep⟩ | hstep
    · have ih2 := ih (i + 1) (c + 1) t (by omega)
      simp only [runHints, hstep]
      refine ⟨ih2.1, ?_, ?_, ?_⟩
      · intro s hs
        simp only [List.cons_append, List.nil_append, List.mem_cons] at hs
        rcases hs with rfl | hs
        · simp
          omega
        · exact ih2.2.1 s hs
      · simp only [List.singleton_append]
        rw [List.chain'_cons]
        exact ⟨Or.inl ⟨rfl, rfl⟩, ih2.2.2.1⟩
      · simp only [List.singleton_append]
        rw [List.getLast?_cons_cons]
        exact ih2.2.2.2
    · have ih2 := ih (i + 1) c (t - 1) (by omega)
      simp only [runHints, hstep]
      refine ⟨ih2.1, ?_, ?_, ?_⟩
      · intro s hs
        simp only [List.cons_append, List.nil_append, List.mem_cons] at hs
        rcases hs with rfl | hs
        · simp
          omega
        · exact ih2.2.1 s hs
      · simp only [List.singleton_append]
        rw [List.chain'_cons]
        exact ⟨Or.inr ⟨rfl, rfl⟩, ih2.2.2.1⟩
      · simp only [List.singleton_append]
        rw [List.getLast?_cons_cons]
        exact ih2.2.2.2

/-- C1: for every lesson-generation job, every persisted snapshot of the
progress row satisfies `completed ≤ total` (with `0 ≤ completed` holding
by the `Nat` embedding of Django's `PositiveIntegerField`), and from the
save that sets `total` onward the persisted `total` never increases:
consecutive post-outline saves either increment `completed` by one,
decrement `total` by one (floored at zero), or — for the terminal
status-only save — leave both counters unchanged. -/
theorem generation_progress_invariant (inp : TaskInput) :
    (∀ s ∈ (generate_lesson_task inp).preSnaps, s.completed ≤ s.total) ∧
    (∀ s ∈ (generate_lesson_task inp).postSnaps, s.completed ≤ s.total) ∧
    List.Chain' (fun a b => b.total ≤ a.total) (generate_lesson_task inp).postSnaps ∧
    List.Chain' (fun a b => stepRel a b ∨
        (b.completed = a.completed ∧ b.total = a.total))
      (generate_lesson_task inp).postSnaps := by
  rcases hs : coerceDict inp.structureRes with _ | kvs
  · refine ⟨?_, by simp [generate_lesson_task, hs], by simp [generate_lesson_task, hs],
      by simp [generate_lesson_task, hs]⟩
    intro s hsm
    simp only [generate_lesson_task, hs, List.mem_cons, List.mem_singleton,
      List.not_mem_nil, or_false] at hsm
    rcases hsm with rfl | rfl <;> exact Nat.zero_le _
  · rcases hb : (jget kvs "blocks").getD (.arr []) with _ | b | n | s | hints | kvs2
    case arr =>
      obtain ⟨h1, h2, h3, h4⟩ := runHints_spec inp hints 1 0 hints.length (by omega)
      simp only [generate_lesson_task, hs, hb]
      have hchain : List.Chain'
          (fun a b => stepRel a b ∨ (b.completed = a.completed ∧ b.total = a.total))
          ((⟨GStatus.in_progress, hints.length, 0⟩ : Snapshot) ::
            ((runHints inp hints 1 (0, hints.length)).2.2 ++
              [⟨if (runHints inp hints 1 (0, hints.length)).1.1 =
                    (runHints inp hints 1 (0, hints.length)).1.2 then GStatus.done
                else if (runHints inp hints 1 (0, hints.length)).1.1 = 0 then
                  GStatus.failed
                else GStatus.in_progress,
                (runHints inp hints 1 (0, hints.length)).1.2,
                (runHints inp hints 1 (0, hints.length)).1.1⟩])) := by
        rw [← List.cons_append, List.chain'_append]
        refine ⟨h3.imp (fun a b hab => Or.inl hab), List.chain'_singleton _, ?_⟩
        intro x hx y hy
        rw [h4] at hx
        simp only [Option.mem_def, Option.some.injEq] at hx
        simp only [List.head?_cons, Option.mem_def, Option.some.injEq] at hy
        subst hx
        subst hy
        exact Or.inr ⟨rfl, rfl⟩
      refine ⟨?_, ?_, ?_, hchain⟩
      · intro s hsm
        simp only [List.mem_singleton] at hsm
        subst hsm
        exact Nat.zero_le _
      · intro s hsm
        simp only [List.mem_cons, List.mem_append, List.mem_singleton,
          List.not_mem_nil, or_false] at hsm
        rcases hsm with (rfl | hsm) | rfl
        · exact Nat.zero_le _
        · exact h2 s hsm
        · exact le_of_eq h1.symm
      · refine hchain.imp (fun a b hab => ?_)
        rcases hab with (⟨_, ht⟩ | ⟨_, ht⟩) | ⟨_, ht⟩
        · exact le_of_eq ht
        · rw [ht]; exact Nat.sub_le a.total 1
        · exact le_of_eq ht
    all_goals
      refine ⟨?_, by simp [generate_lesson_task, hs, hb],
        by simp [generate_lesson_task, hs, hb], by simp [generate_lesson_task, hs, hb]⟩
    all_goals
      intro s hsm
    all_goals
      simp only [generate_lesson_task, hs, hb, List.mem_cons, List.mem_singleton,
        List.not_mem_nil, or_false] at hsm
    all_goals
      rcases hsm with rfl | rfl <;> exact Nat.zero_le _
